import Mathlib

/-!
Verification development for the research-assistant agent
(`src/streamlit_app.py`).  The program is a `ResearchAssistant` class with
a cached web-search client (`web_search`), a result formatter
(`format_search_results`), a bounded tool-use agent loop
(`process_research_query` / `handle_tool_use`) and a reset operation
(`reset_conversation`).  The two network boundaries — the model-provider
call (`client.messages.create`) and the search-provider HTTP call — are
modelled as oracles indexed by the number of calls issued so far, so that
call counts, failures and malformed payloads are all expressible.
-/

namespace ResearchAssistant

/-- A processed search result: the `{title, url, description}` record built
in `web_search` (src lines 63–67). -/
structure SearchResult where
  title : String
  url : String
  description : String
deriving DecidableEq

/-- A raw item of the provider's JSON `web.results` array; each field may be
missing (`item.get(key, "")` in the source defaults it to the empty
string). -/
structure RawItem where
  title : Option String
  url : Option String
  description : Option String
deriving DecidableEq

/-- Outcome of one search-provider HTTP round trip (src lines 56–58):
`exn` is any raised exception — network failure, a non-2xx status
(`raise_for_status`) or an unparsable body; `ok none` is a well-formed
JSON body missing the `web.results` array (malformed payload); `ok (some items)`
is a body carrying the array. -/
inductive NetOutcome where
  | exn : NetOutcome
  | ok : Option (List RawItem) → NetOutcome
deriving DecidableEq

/-- Search-client state: `search_results_cache` is the source's dict field
(key → cached results, keyed by the string `f"{query}_{num_results}"`),
and `netLog` instruments the embedding with one entry per HTTP call issued
(the key it was issued for and its outcome), so that network calls can be
counted. -/
structure WSState where
  search_results_cache : List (String × List SearchResult)
  netLog : List (String × NetOutcome)
deriving DecidableEq

/-- The cache key `f"{query}_{num_results}"` (src line 38). -/
def cacheKey (query : String) (num_results : Nat) : String :=
  query ++ "_" ++ toString num_results

/-- Field extraction with empty-string defaults (src lines 63–67). -/
def processItem (it : RawItem) : SearchResult :=
  { title := it.title.getD "", url := it.url.getD "",
    description := it.description.getD "" }

/-- `web_search` (src lines 35–78).  Checks the cache; on a miss issues one
network call (the oracle `net`, indexed by the number of calls made so
far).  A raised exception returns `[]` without caching; a payload missing
`web.results` caches and returns `[]`; otherwise the items are truncated
to `num_results`, normalized, cached and returned. -/
def web_search (net : Nat → NetOutcome) (s : WSState) (query : String)
    (num_results : Nat) : List SearchResult × WSState :=
  let key := cacheKey query num_results
  match s.search_results_cache.lookup key with
  | some cached => (cached, s)
  | none =>
    match net s.netLog.length with
    | NetOutcome.exn =>
        ([], { s with netLog := s.netLog ++ [(key, NetOutcome.exn)] })
    | NetOutcome.ok none =>
        ([], { search_results_cache := (key, []) :: s.search_results_cache,
               netLog := s.netLog ++ [(key, NetOutcome.ok none)] })
    | NetOutcome.ok (some items) =>
        let processed := (items.take num_results).map processItem
        (processed,
         { search_results_cache := (key, processed) :: s.search_results_cache,
           netLog := s.netLog ++ [(key, NetOutcome.ok (some items))] })

/-- One rendered entry of `format_search_results` (src lines 87–89):
number, bold title, URL line, description. -/
def format_entry (i : Nat) (r : SearchResult) : String :=
  toString i ++ ". **" ++ r.title ++ "**\n" ++ "   URL: " ++ r.url ++ "\n"
    ++ "   " ++ r.description ++ "\n\n"

/-- The `for i, result in enumerate(results, 1)` accumulation of
`format_search_results`, starting at number `i`. -/
def formatFrom (i : Nat) : List SearchResult → String
  | [] => ""
  | r :: rs => format_entry i r ++ formatFrom (i + 1) rs

/-- `format_search_results` (src lines 80–91): the fixed sentinel on empty
input, otherwise a header followed by numbered entries from 1. -/
def format_search_results (results : List SearchResult) : String :=
  if results.isEmpty then "No search results found."
  else "### Search Results:\n\n" ++ formatFrom 1 results

/-- Plain concatenation of a list of strings (spelled out so that the
per-entry decomposition of the formatted output is explicit). -/
def concatStrings : List String → String
  | [] => ""
  | s :: rest => s ++ concatStrings rest

/-- Running a sequence of `web_search` invocations (query, count pairs)
through one session state, collecting each invocation's returned results. -/
def runSearches (net : Nat → NetOutcome) :
    List (String × Nat) → WSState → List (List SearchResult) × WSState
  | [], s => ([], s)
  | (q, n) :: rest, s =>
      let r := web_search net s q n
      let rs := runSearches net rest r.2
      (r.1 :: rs.1, rs.2)

/-- The session's initial search state: empty cache, no network calls. -/
def initialWS : WSState := ⟨[], []⟩

/-- Input object of a tool call as supplied by the model; both fields are
optional (`tool_input.get("query", "")`, `tool_input.get("num_results", 5)`
in src lines 147–148). -/
structure ToolInput where
  query : Option String
  num_results : Option Nat
deriving DecidableEq

/-- A content block of a conversation turn or of a model response (src:
blocks of type `"text"`, `"tool_use"`, `"tool_result"`). -/
inductive ContentBlock where
  | text : String → ContentBlock
  | tool_use : String → String → ToolInput → ContentBlock
  | tool_result : String → String → ContentBlock
deriving DecidableEq

/-- Role of a conversation turn. -/
inductive Role where
  | user : Role
  | assistant : Role
deriving DecidableEq

/-- Content of a turn: plain text (user queries, final answers) or a list
of structured blocks (tool_use / tool_result turns). -/
inductive TurnContent where
  | text : String → TurnContent
  | blocks : List ContentBlock → TurnContent
deriving DecidableEq

/-- One entry of `conversation_history`. -/
structure Turn where
  role : Role
  content : TurnContent
deriving DecidableEq

/-- A model response: its declared stop reason (the source compares it with
the string `"tool_use"`) and its ordered content blocks. -/
structure ModelResponse where
  stop_reason : String
  content : List ContentBlock
deriving DecidableEq

/-- Outcome of one `client.messages.create` call: a response, or one of the
three exception kinds caught at src lines 228–239 (`anthropic.APIError`,
`requests.RequestException`, any other `Exception`). -/
inductive ModelOutcome where
  | ok : ModelResponse → ModelOutcome
  | apiError : String → ModelOutcome
  | netError : String → ModelOutcome
  | otherError : String → ModelOutcome
deriving DecidableEq

/-- Error kinds of the three `except` clauses. -/
inductive ErrKind where
  | api : ErrKind
  | net : ErrKind
  | other : ErrKind
deriving DecidableEq

/-- The user-visible error strings built at src lines 229, 233, 237. -/
def errorLabel : ErrKind → String → String
  | ErrKind.api, m => "Anthropic API Error: " ++ m
  | ErrKind.net, m => "Network Error: " ++ m
  | ErrKind.other, m => "Unexpected Error: " ++ m

/-- The error kind an outcome raises, if any. -/
def modelErr : ModelOutcome → Option (ErrKind × String)
  | ModelOutcome.ok _ => none
  | ModelOutcome.apiError m => some (ErrKind.api, m)
  | ModelOutcome.netError m => some (ErrKind.net, m)
  | ModelOutcome.otherError m => some (ErrKind.other, m)

/-- The response carried by an outcome, if any. -/
def respOf : ModelOutcome → Option ModelResponse
  | ModelOutcome.ok r => some r
  | _ => none

/-- `handle_tool_use` (src lines 139–175): scan the response content in
order; at the first `tool_use` block whose name is `"web_search"`, run the
search, append the assistant `tool_use` turn and the user `tool_result`
turn (with the call identifier and the formatted results), and report that
a tool was used.  `tool_use` blocks with any other name are skipped, as
are non-`tool_use` blocks; if no block matches, nothing is appended and
`false` is reported. -/
def handle_tool_use (net : Nat → NetOutcome) (s : WSState) (hist : List Turn) :
    List ContentBlock → Bool × WSState × List Turn
  | [] => (false, s, hist)
  | ContentBlock.tool_use tid name inp :: rest =>
      if name = "web_search" then
        let out := web_search net s (inp.query.getD "") (inp.num_results.getD 5)
        (true, out.2,
          hist ++ [⟨Role.assistant, TurnContent.blocks
                      [ContentBlock.tool_use tid name inp]⟩,
                   ⟨Role.user, TurnContent.blocks
                      [ContentBlock.tool_result tid
                        (format_search_results out.1)]⟩])
      else handle_tool_use net s hist rest
  | _ :: rest => handle_tool_use net s hist rest

/-- Concatenation of the text blocks of a response (src lines 214–217). -/
def extract_final_text (r : ModelResponse) : String :=
  r.content.foldl
    (fun acc b => match b with
      | ContentBlock.text s => acc ++ s
      | _ => acc) ""

/-- Result of the `while` loop of `process_research_query`: a raised
exception (kind and message) or normal completion; `last` is the loop
variable `response` after the loop; `calls` counts the
`client.messages.create` calls issued; `trace` records the value of
`conversation_history` at the moment each model call was issued. -/
structure LoopOut where
  failure : Option (ErrKind × String)
  last : Option ModelResponse
  hist : List Turn
  ws : WSState
  calls : Nat
  trace : List (List Turn)
deriving DecidableEq

/-- The `while iterations < max_iterations` loop (src lines 183–211),
recursing on the remaining iteration budget.  Each pass issues one model
call (the oracle `model`, indexed by calls made so far).  A raised
exception aborts the loop; a `"tool_use"` stop reason runs
`handle_tool_use` and continues only if a tool was used; any other stop
reason ends the loop with that response as final. -/
def runLoop (model : Nat → ModelOutcome) (net : Nat → NetOutcome) :
    Nat → Nat → List Turn → WSState → Option ModelResponse →
      List (List Turn) → LoopOut
  | 0, calls, hist, ws, last, trace =>
      ⟨none, last, hist, ws, calls, trace⟩
  | fuel + 1, calls, hist, ws, last, trace =>
      let trace1 := trace ++ [hist]
      match model calls with
      | ModelOutcome.apiError m =>
          ⟨some (ErrKind.api, m), last, hist, ws, calls + 1, trace1⟩
      | ModelOutcome.netError m =>
          ⟨some (ErrKind.net, m), last, hist, ws, calls + 1, trace1⟩
      | ModelOutcome.otherError m =>
          ⟨some (ErrKind.other, m), last, hist, ws, calls + 1, trace1⟩
      | ModelOutcome.ok resp =>
          if resp.stop_reason = "tool_use" then
            let r := handle_tool_use net ws hist resp.content
            if r.1 then
              runLoop model net fuel (calls + 1) r.2.2 r.2.1 (some resp) trace1
            else
              ⟨none, some resp, r.2.2, r.2.1, calls + 1, trace1⟩
          else ⟨none, some resp, hist, ws, calls + 1, trace1⟩

/-- The agent-session state: the two mutable fields of the
`ResearchAssistant` instance (the conversation history, and the search
state holding `search_results_cache` plus the network-call log). -/
structure Assistant where
  conversation_history : List Turn
  ws : WSState
deriving DecidableEq

/-- Result of one `process_research_query` invocation: the returned string,
the updated session, and the instrumentation (model-call count and the
history snapshot at each model call). -/
structure QueryOut where
  text : String
  assistant : Assistant
  calls : Nat
  trace : List (List Turn)
deriving DecidableEq

/-- `max_iterations = 5` (src line 180). -/
def max_iterations : Nat := 5

/-- The post-loop section of `process_research_query` (src lines 213–239):
on an exception, return the prefixed error string without touching
history; otherwise concatenate the text blocks of the last response,
append it as an assistant turn only if non-empty, and return it. -/
def finishQuery (out : LoopOut) : QueryOut :=
  match out.failure with
  | some km =>
      ⟨errorLabel km.1 km.2, ⟨out.hist, out.ws⟩, out.calls, out.trace⟩
  | none =>
      let ft := match out.last with
        | some r => extract_final_text r
        | none => ""
      ⟨ft,
       ⟨if ft = "" then out.hist
        else out.hist ++ [⟨Role.assistant, TurnContent.text ft⟩], out.ws⟩,
       out.calls, out.trace⟩

/-- `process_research_query` (src lines 116–239): append the user query to
history, run the bounded loop, then finish as above. -/
def process_research_query (model : Nat → ModelOutcome)
    (net : Nat → NetOutcome) (a : Assistant) (user_query : String) :
    QueryOut :=
  finishQuery (runLoop model net max_iterations 0
    (a.conversation_history ++ [⟨Role.user, TurnContent.text user_query⟩])
    a.ws none [])

/-- `reset_conversation` (src lines 241–244): clear the history, leave the
search state alone, return the confirmation string. -/
def reset_conversation (a : Assistant) : Assistant × String :=
  ({ a with conversation_history := [] }, "Conversation has been reset.")

/-- The first `tool_use` block of a content list (identifier, name,
input), regardless of its name. -/
def firstToolUse : List ContentBlock → Option (String × String × ToolInput)
  | [] => none
  | ContentBlock.tool_use tid name inp :: _ => some (tid, name, inp)
  | _ :: rest => firstToolUse rest

/-- The first `tool_use` block named `"web_search"` (identifier and
input): the block `handle_tool_use` acts on. -/
def firstWebSearchUse : List ContentBlock → Option (String × ToolInput)
  | [] => none
  | ContentBlock.tool_use tid name inp :: rest =>
      if name = "web_search" then some (tid, inp)
      else firstWebSearchUse rest
  | _ :: rest => firstWebSearchUse rest

/-- Whether a content list holds any `tool_use` block. -/
def containsToolUse : List ContentBlock → Bool
  | [] => false
  | ContentBlock.tool_use _ _ _ :: _ => true
  | _ :: rest => containsToolUse rest

/-- Whether a content list holds a `tool_use` block named
`"web_search"`. -/
def containsWebSearchUse : List ContentBlock → Bool
  | [] => false
  | ContentBlock.tool_use _ name _ :: rest =>
      name == "web_search" || containsWebSearchUse rest
  | _ :: rest => containsWebSearchUse rest

/-- Whether a model-call outcome is a response that requests (recognized)
tool use: stop reason `"tool_use"` and a `web_search` tool-use block
present, i.e. exactly the condition under which one loop pass continues to
the next. -/
def requestsToolUseB : ModelOutcome → Bool
  | ModelOutcome.ok r =>
      r.stop_reason == "tool_use" && containsWebSearchUse r.content
  | _ => false

/-- `extract_final_text` of the response of an outcome, empty for a raised
exception. -/
def extractFromOutcome : ModelOutcome → String
  | ModelOutcome.ok r => extract_final_text r
  | _ => ""

/-- The identifiers of the `tool_use` blocks a turn holds. -/
def turnToolUseIds (t : Turn) : List String :=
  match t.content with
  | TurnContent.text _ => []
  | TurnContent.blocks bs =>
      bs.filterMap fun b => match b with
        | ContentBlock.tool_use tid _ _ => some tid
        | _ => none

/-- The `tool_use_id`s of the `tool_result` blocks a turn holds. -/
def turnResultIds (t : Turn) : List String :=
  match t.content with
  | TurnContent.text _ => []
  | TurnContent.blocks bs =>
      bs.filterMap fun b => match b with
        | ContentBlock.tool_result tid _ => some tid
        | _ => none

/-- Local pairing condition at one turn: if the turn is an assistant turn
holding `tool_use` blocks, the immediately following turn must exist, be a
user turn, and hold a `tool_result` for each of those identifiers. -/
def okStep (t : Turn) (next : Option Turn) : Bool :=
  if t.role == Role.assistant && !(turnToolUseIds t).isEmpty then
    match next with
    | none => false
    | some u =>
        u.role == Role.user
          && (turnToolUseIds t).all fun i => (turnResultIds u).contains i
  else true

/-- No dangling tool calls: every assistant turn holding a `tool_use`
block is immediately followed by a user turn holding the matching
`tool_result`. -/
def noDangling : List Turn → Bool
  | [] => true
  | t :: rest => okStep t rest.head? && noDangling rest

/-! ### Basic lemmas about the search client and `handle_tool_use` -/

/-- A cache hit returns the cached value and leaves the state alone. -/
theorem web_search_hit (net : Nat → NetOutcome) (s : WSState) (q : String)
    (n : Nat) (r : List SearchResult)
    (h : s.search_results_cache.lookup (cacheKey q n) = some r) :
    web_search net s q n = (r, s) := by
  unfold web_search
  simp [h]

/-- One `web_search` invocation issues at most one network call. -/
theorem web_search_netLog_le (net : Nat → NetOutcome) (s : WSState)
    (q : String) (n : Nat) :
    (web_search net s q n).2.netLog.length ≤ s.netLog.length + 1 := by
  unfold web_search
  cases hl : s.search_results_cache.lookup (cacheKey q n) with
  | some r => simp [hl]
  | none =>
      cases hn : net s.netLog.length with
      | exn => simp [hl, hn]
      | ok p => cases p <;> simp [hl, hn]

/-- If no `tool_use` block is named `web_search`, `handle_tool_use` reports
no tool used and changes nothing. -/
theorem handle_tool_use_none (net : Nat → NetOutcome) (s : WSState)
    (hist : List Turn) :
    ∀ bs : List ContentBlock, firstWebSearchUse bs = none →
      handle_tool_use net s hist bs = (false, s, hist) := by
  intro bs
  induction bs with
  | nil => intro _; rfl
  | cons b rest ih =>
      cases b with
      | text t => intro h; exact ih h
      | tool_result tid c => intro h; exact ih h
      | tool_use tid name inp =>
          intro h
          by_cases hn : name = "web_search"
          · rw [firstWebSearchUse, if_pos hn] at h
            exact absurd h (by simp)
          · rw [firstWebSearchUse, if_neg hn] at h
            rw [handle_tool_use, if_neg hn]
            exact ih h

/-- `handle_tool_use` acts on exactly the first `tool_use` block named
`web_search`: it runs the search on that block's input, appends the
assistant `tool_use` turn and the matching user `tool_result` turn, and
reports the tool used. -/
theorem handle_tool_use_some (net : Nat → NetOutcome) (s : WSState)
    (hist : List Turn) :
    ∀ (bs : List ContentBlock) (tid : String) (inp : ToolInput),
      firstWebSearchUse bs = some (tid, inp) →
      handle_tool_use net s hist bs =
        (true,
         (web_search net s (inp.query.getD "") (inp.num_results.getD 5)).2,
         hist ++ [⟨Role.assistant, TurnContent.blocks
                    [ContentBlock.tool_use tid "web_search" inp]⟩,
                  ⟨Role.user, TurnContent.blocks
                    [ContentBlock.tool_result tid
                      (format_search_results
                        (web_search net s (inp.query.getD "")
                          (inp.num_results.getD 5)).1)]⟩]) := by
  intro bs
  induction bs with
  | nil => intro tid inp h; exact absurd h (by simp [firstWebSearchUse])
  | cons b rest ih =>
      cases b with
      | text t => intro tid inp h; exact ih tid inp h
      | tool_result t c => intro tid inp h; exact ih tid inp h
      | tool_use tid0 name inp0 =>
          intro tid inp h
          by_cases hn : name = "web_search"
          · rw [firstWebSearchUse, if_pos hn] at h
            have h1 : tid0 = tid ∧ inp0 = inp := by
              constructor <;> [exact congrArg Prod.fst (Option.some.inj h);
                exact congrArg Prod.snd (Option.some.inj h)]
            obtain ⟨h1a, h1b⟩ := h1
            subst h1a h1b hn
            rw [handle_tool_use, if_pos rfl]
          · rw [firstWebSearchUse, if_neg hn] at h
            rw [handle_tool_use, if_neg hn]
            exact ih tid inp h

/-- `firstWebSearchUse` finds a block exactly when `containsWebSearchUse`
holds. -/
theorem firstWebSearchUse_isSome (bs : List ContentBlock) :
    (firstWebSearchUse bs).isSome = containsWebSearchUse bs := by
  induction bs with
  | nil => rfl
  | cons b rest ih =>
      cases b with
      | text t => simpa [firstWebSearchUse, containsWebSearchUse] using ih
      | tool_result t c =>
          simpa [firstWebSearchUse, containsWebSearchUse] using ih
      | tool_use tid name inp =>
          by_cases hn : name = "web_search"
          · simp [firstWebSearchUse, containsWebSearchUse, hn]
          · have hb : (name == "web_search") = false := by simpa using hn
            simpa [firstWebSearchUse, containsWebSearchUse, hn, hb] using ih

/-! ### The no-dangling-tool-call invariant -/

/-- A turn that is fine with no successor is fine with any successor (its
local condition is vacuous). -/
theorem okStep_of_none (t : Turn) (h : okStep t none = true) :
    ∀ x : Option Turn, okStep t x = true := by
  intro x
  unfold okStep at h ⊢
  by_cases hc : (t.role == Role.assistant && !(turnToolUseIds t).isEmpty) = true
  · rw [if_pos hc] at h
    exact absurd h (by simp)
  · rw [if_neg hc]

/-- Well-pairedness is preserved under concatenation. -/
theorem noDangling_append (h2 : List Turn) (H2 : noDangling h2 = true) :
    ∀ h : List Turn, noDangling h = true → noDangling (h ++ h2) = true := by
  intro h
  induction h with
  | nil => intro _; simpa using H2
  | cons t rest ih =>
      intro H
      rw [noDangling, Bool.and_eq_true] at H
      rw [List.cons_append, noDangling, Bool.and_eq_true]
      refine ⟨?_, ih H.2⟩
      cases rest with
      | nil => exact okStep_of_none t (by simpa using H.1) _
      | cons u rest2 => simpa using H.1

/-- A single turn whose role is `user` is well paired. -/
theorem noDangling_single_user (c : TurnContent) :
    noDangling [⟨Role.user, c⟩] = true := by
  simp [noDangling, okStep, turnToolUseIds]

/-- A single turn holding no `tool_use` block is well paired. -/
theorem noDangling_single_text (role : Role) (s : String) :
    noDangling [⟨role, TurnContent.text s⟩] = true := by
  simp [noDangling, okStep, turnToolUseIds]

/-- The two turns appended by `handle_tool_use` — the assistant `tool_use`
turn and the user `tool_result` turn carrying the same identifier — form a
well-paired history fragment. -/
theorem noDangling_pair (tid name inp fmt) :
    noDangling
      [⟨Role.assistant, TurnContent.blocks
          [ContentBlock.tool_use tid name inp]⟩,
       ⟨Role.user, TurnContent.blocks
          [ContentBlock.tool_result tid fmt]⟩] = true := by
  simp [noDangling, okStep, turnToolUseIds, turnResultIds, List.filterMap]

/-- `getLast?` of an append with a non-empty right part. -/
theorem getLast?_append_right {α : Type} (l2 : List α) (h2 : l2 ≠ []) :
    ∀ l1 : List α, (l1 ++ l2).getLast? = l2.getLast? := by
  intro l1
  induction l1 with
  | nil => simp
  | cons a l1 ih =>
      have hne : l1 ++ l2 ≠ [] := by
        simp [h2]
      obtain ⟨c, cs, hcc⟩ := List.exists_cons_of_ne_nil hne
      rw [List.cons_append, hcc, List.getLast?_cons_cons, ← hcc, ih]

/-! ### Step lemmas for the agent loop -/

/-- The search state after `handle_tool_use` dispatches block input
`inp`. -/
def toolWS (net : Nat → NetOutcome) (ws : WSState) (inp : ToolInput) :
    WSState :=
  (web_search net ws (inp.query.getD "") (inp.num_results.getD 5)).2

/-- The two history turns `handle_tool_use` appends for call identifier
`tid` and input `inp`: the assistant `tool_use` turn and the user
`tool_result` turn carrying the formatted results. -/
def toolPair (net : Nat → NetOutcome) (ws : WSState) (tid : String)
    (inp : ToolInput) : List Turn :=
  [⟨Role.assistant, TurnContent.blocks
      [ContentBlock.tool_use tid "web_search" inp]⟩,
   ⟨Role.user, TurnContent.blocks
      [ContentBlock.tool_result tid
        (format_search_results
          (web_search net ws (inp.query.getD "")
            (inp.num_results.getD 5)).1)]⟩]

/-- A loop pass whose model call raises ends the query with that error. -/
theorem runLoop_succ_err (model : Nat → ModelOutcome) (net : Nat → NetOutcome)
    (fuel calls : Nat) (hist : List Turn) (ws : WSState)
    (last : Option ModelResponse) (trace : List (List Turn))
    (k : ErrKind) (m : String) (hm : modelErr (model calls) = some (k, m)) :
    runLoop model net (fuel + 1) calls hist ws last trace =
      ⟨some (k, m), last, hist, ws, calls + 1, trace ++ [hist]⟩ := by
  cases hmc : model calls <;> rw [hmc] at hm <;> simp [modelErr] at hm
  case apiError m0 =>
    obtain ⟨hk, hm0⟩ := hm
    subst hk hm0
    simp [runLoop, hmc]
  case netError m0 =>
    obtain ⟨hk, hm0⟩ := hm
    subst hk hm0
    simp [runLoop, hmc]
  case otherError m0 =>
    obtain ⟨hk, hm0⟩ := hm
    subst hk hm0
    simp [runLoop, hmc]

/-- A loop pass whose response does not request tool use ends the loop
with that response as final. -/
theorem runLoop_succ_final (model : Nat → ModelOutcome)
    (net : Nat → NetOutcome) (fuel calls : Nat) (hist : List Turn)
    (ws : WSState) (last : Option ModelResponse) (trace : List (List Turn))
    (resp : ModelResponse) (hm : model calls = ModelOutcome.ok resp)
    (hstop : resp.stop_reason ≠ "tool_use") :
    runLoop model net (fuel + 1) calls hist ws last trace =
      ⟨none, some resp, hist, ws, calls + 1, trace ++ [hist]⟩ := by
  simp [runLoop, hm, hstop]

/-- A loop pass whose response declares tool use but carries no
`web_search` tool-use block breaks out of the loop with that response,
appending nothing. -/
theorem runLoop_succ_notool (model : Nat → ModelOutcome)
    (net : Nat → NetOutcome) (fuel calls : Nat) (hist : List Turn)
    (ws : WSState) (last : Option ModelResponse) (trace : List (List Turn))
    (resp : ModelResponse) (hm : model calls = ModelOutcome.ok resp)
    (hstop : resp.stop_reason = "tool_use")
    (hfw : firstWebSearchUse resp.content = none) :
    runLoop model net (fuel + 1) calls hist ws last trace =
      ⟨none, some resp, hist, ws, calls + 1, trace ++ [hist]⟩ := by
  have hr := handle_tool_use_none net ws hist resp.content hfw
  simp [runLoop, hm, hstop, hr]

/-- A loop pass whose response requests a `web_search` call appends the
tool pair, updates the search state, and continues with one unit of fuel
spent. -/
theorem runLoop_succ_tool (model : Nat → ModelOutcome)
    (net : Nat → NetOutcome) (fuel calls : Nat) (hist : List Turn)
    (ws : WSState) (last : Option ModelResponse) (trace : List (List Turn))
    (resp : ModelResponse) (tid : String) (inp : ToolInput)
    (hm : model calls = ModelOutcome.ok resp)
    (hstop : resp.stop_reason = "tool_use")
    (hfw : firstWebSearchUse resp.content = some (tid, inp)) :
    runLoop model net (fuel + 1) calls hist ws last trace =
      runLoop model net fuel (calls + 1) (hist ++ toolPair net ws tid inp)
        (toolWS net ws inp) (some resp) (trace ++ [hist]) := by
  have hr := handle_tool_use_some net ws hist resp.content tid inp hfw
  simp [runLoop, hm, hstop, hr, toolPair, toolWS]

/-! ### Induction lemmas for the agent loop -/

/-- The loop issues at most `fuel` further model calls. -/
theorem runLoop_calls_le (model : Nat → ModelOutcome)
    (net : Nat → NetOutcome) :
    ∀ fuel calls hist ws last trace,
      (runLoop model net fuel calls hist ws last trace).calls
        ≤ calls + fuel := by
  intro fuel
  induction fuel with
  | zero => intro calls hist ws last trace; simp [runLoop]
  | succ fuel ih =>
      intro calls hist ws last trace
      cases hmc : model calls with
      | apiError m =>
          rw [runLoop_succ_err model net fuel calls hist ws last trace
            ErrKind.api m (by rw [hmc]; rfl)]
          show calls + 1 ≤ calls + (fuel + 1)
          omega
      | netError m =>
          rw [runLoop_succ_err model net fuel calls hist ws last trace
            ErrKind.net m (by rw [hmc]; rfl)]
          show calls + 1 ≤ calls + (fuel + 1)
          omega
      | otherError m =>
          rw [runLoop_succ_err model net fuel calls hist ws last trace
            ErrKind.other m (by rw [hmc]; rfl)]
          show calls + 1 ≤ calls + (fuel + 1)
          omega
      | ok resp =>
          by_cases hstop : resp.stop_reason = "tool_use"
          · cases hfw : firstWebSearchUse resp.content with
            | none =>
                rw [runLoop_succ_notool model net fuel calls hist ws last
                  trace resp hmc hstop hfw]
                show calls + 1 ≤ calls + (fuel + 1)
                omega
            | some p =>
                rw [runLoop_succ_tool model net fuel calls hist ws last trace
                  resp p.1 p.2 hmc hstop (by rw [hfw])]
                have := ih (calls + 1)
                  (hist ++ toolPair net ws p.1 p.2) (toolWS net ws p.2)
                  (some resp) (trace ++ [hist])
                omega
          · rw [runLoop_succ_final model net fuel calls hist ws last trace
              resp hmc hstop]
            show calls + 1 ≤ calls + (fuel + 1)
            omega

/-- If the history is well paired when the loop starts, it is well paired
at the moment of every model call the loop issues, and when the loop
ends. -/
theorem runLoop_noDangling (model : Nat → ModelOutcome)
    (net : Nat → NetOutcome) :
    ∀ fuel calls hist ws last trace,
      noDangling hist = true →
      (∀ h2 ∈ trace, noDangling h2 = true) →
      noDangling (runLoop model net fuel calls hist ws last trace).hist
          = true ∧
        ∀ h2 ∈ (runLoop model net fuel calls hist ws last trace).trace,
          noDangling h2 = true := by
  intro fuel
  induction fuel with
  | zero =>
      intro calls hist ws last trace Hh Ht
      exact ⟨Hh, Ht⟩
  | succ fuel ih =>
      intro calls hist ws last trace Hh Ht
      have Ht1 : ∀ h2 ∈ trace ++ [hist], noDangling h2 = true := by
        intro h2 hm2
        rcases List.mem_append.mp hm2 with h | h
        · exact Ht h2 h
        · rw [List.mem_singleton.mp h]; exact Hh
      cases hmc : model calls with
      | apiError m =>
          rw [runLoop_succ_err model net fuel calls hist ws last trace
            ErrKind.api m (by rw [hmc]; rfl)]
          exact ⟨Hh, Ht1⟩
      | netError m =>
          rw [runLoop_succ_err model net fuel calls hist ws last trace
            ErrKind.net m (by rw [hmc]; rfl)]
          exact ⟨Hh, Ht1⟩
      | otherError m =>
          rw [runLoop_succ_err model net fuel calls hist ws last trace
            ErrKind.other m (by rw [hmc]; rfl)]
          exact ⟨Hh, Ht1⟩
      | ok resp =>
          by_cases hstop : resp.stop_reason = "tool_use"
          · cases hfw : firstWebSearchUse resp.content with
            | none =>
                rw [runLoop_succ_notool model net fuel calls hist ws last
                  trace resp hmc hstop hfw]
                exact ⟨Hh, Ht1⟩
            | some p =>
                rw [runLoop_succ_tool model net fuel calls hist ws last trace
                  resp p.1 p.2 hmc hstop (by rw [hfw])]
                refine ih (calls + 1) (hist ++ toolPair net ws p.1 p.2)
                  (toolWS net ws p.2) (some resp) (trace ++ [hist]) ?_ Ht1
                exact noDangling_append (toolPair net ws p.1 p.2)
                  (noDangling_pair _ _ _ _) hist Hh
          · rw [runLoop_succ_final model net fuel calls hist ws last trace
              resp hmc hstop]
            exact ⟨Hh, Ht1⟩

/-- Whatever the oracles do, the loop only appends to the history, what it
appends consists of structured tool turns only (no plain-text turn), and
if anything was appended the last appended turn is a user turn. -/
theorem runLoop_hist_shape (model : Nat → ModelOutcome)
    (net : Nat → NetOutcome) :
    ∀ fuel calls hist ws last trace,
      ∃ rest,
        (runLoop model net fuel calls hist ws last trace).hist
            = hist ++ rest ∧
          (∀ t ∈ rest, ∃ bs, t.content = TurnContent.blocks bs) ∧
          (rest = [] ∨ ∃ t2, rest.getLast? = some t2 ∧
            t2.role = Role.user) := by
  intro fuel
  induction fuel with
  | zero =>
      intro calls hist ws last trace
      exact ⟨[], by simp [runLoop], by simp, Or.inl rfl⟩
  | succ fuel ih =>
      intro calls hist ws last trace
      cases hmc : model calls with
      | apiError m =>
          rw [runLoop_succ_err model net fuel calls hist ws last trace
            ErrKind.api m (by rw [hmc]; rfl)]
          exact ⟨[], by simp, by simp, Or.inl rfl⟩
      | netError m =>
          rw [runLoop_succ_err model net fuel calls hist ws last trace
            ErrKind.net m (by rw [hmc]; rfl)]
          exact ⟨[], by simp, by simp, Or.inl rfl⟩
      | otherError m =>
          rw [runLoop_succ_err model net fuel calls hist ws last trace
            ErrKind.other m (by rw [hmc]; rfl)]
          exact ⟨[], by simp, by simp, Or.inl rfl⟩
      | ok resp =>
          by_cases hstop : resp.stop_reason = "tool_use"
          · cases hfw : firstWebSearchUse resp.content with
            | none =>
                rw [runLoop_succ_notool model net fuel calls hist ws last
                  trace resp hmc hstop hfw]
                exact ⟨[], by simp, by simp, Or.inl rfl⟩
            | some p =>
                rw [runLoop_succ_tool model net fuel calls hist ws last trace
                  resp p.1 p.2 hmc hstop (by rw [hfw])]
                obtain ⟨rest1, hr1, hr2, hr3⟩ := ih (calls + 1)
                  (hist ++ toolPair net ws p.1 p.2) (toolWS net ws p.2)
                  (some resp) (trace ++ [hist])
                refine ⟨toolPair net ws p.1 p.2 ++ rest1, ?_, ?_, ?_⟩
                · rw [hr1, List.append_assoc]
                · intro t ht
                  rcases List.mem_append.mp ht with h | h
                  · simp only [toolPair, List.mem_cons,
                      List.mem_singleton, List.not_mem_nil, or_false] at h
                    rcases h with h | h <;> (subst h; exact ⟨_, rfl⟩)
                  · exact hr2 t h
                · right
                  rcases hr3 with h | ⟨t2, ht2, ht2r⟩
                  · subst h
                    refine ⟨⟨Role.user, TurnContent.blocks
                      [ContentBlock.tool_result p.1
                        (format_search_results
                          (web_search net ws (p.2.query.getD "")
                            (p.2.num_results.getD 5)).1)]⟩, ?_, rfl⟩
                    simp [toolPair]
                  · refine ⟨t2, ?_, ht2r⟩
                    rw [getLast?_append_right _ ?_ _, ht2]
                    intro hnil
                    rw [hnil] at ht2
                    cases ht2
          · rw [runLoop_succ_final model net fuel calls hist ws last trace
              resp hmc hstop]
            exact ⟨[], by simp, by simp, Or.inl rfl⟩

/-- The loop only appends to the model-call trace. -/
theorem runLoop_trace_mono (model : Nat → ModelOutcome)
    (net : Nat → NetOutcome) :
    ∀ fuel calls hist ws last trace,
      ∃ more, (runLoop model net fuel calls hist ws last trace).trace
        = trace ++ more := by
  intro fuel
  induction fuel with
  | zero =>
      intro calls hist ws last trace
      exact ⟨[], by simp [runLoop]⟩
  | succ fuel ih =>
      intro calls hist ws last trace
      cases hmc : model calls with
      | apiError m =>
          rw [runLoop_succ_err model net fuel calls hist ws last trace
            ErrKind.api m (by rw [hmc]; rfl)]
          exact ⟨[hist], rfl⟩
      | netError m =>
          rw [runLoop_succ_err model net fuel calls hist ws last trace
            ErrKind.net m (by rw [hmc]; rfl)]
          exact ⟨[hist], rfl⟩
      | otherError m =>
          rw [runLoop_succ_err model net fuel calls hist ws last trace
            ErrKind.other m (by rw [hmc]; rfl)]
          exact ⟨[hist], rfl⟩
      | ok resp =>
          by_cases hstop : resp.stop_reason = "tool_use"
          · cases hfw : firstWebSearchUse resp.content with
            | none =>
                rw [runLoop_succ_notool model net fuel calls hist ws last
                  trace resp hmc hstop hfw]
                exact ⟨[hist], rfl⟩
            | some p =>
                rw [runLoop_succ_tool model net fuel calls hist ws last trace
                  resp p.1 p.2 hmc hstop (by rw [hfw])]
                obtain ⟨more, hmore⟩ := ih (calls + 1)
                  (hist ++ toolPair net ws p.1 p.2) (toolWS net ws p.2)
                  (some resp) (trace ++ [hist])
                exact ⟨[hist] ++ more, by rw [hmore, List.append_assoc]⟩
          · rw [runLoop_succ_final model net fuel calls hist ws last trace
              resp hmc hstop]
            exact ⟨[hist], rfl⟩

/-- With fuel remaining, the first model call the loop issues carries
exactly the history the loop was entered with. -/
theorem runLoop_trace_head (model : Nat → ModelOutcome)
    (net : Nat → NetOutcome) (fuel calls : Nat) (hist : List Turn)
    (ws : WSState) (last : Option ModelResponse) (trace : List (List Turn))
    (hf : 0 < fuel) :
    ∃ more, (runLoop model net fuel calls hist ws last trace).trace
      = trace ++ [hist] ++ more := by
  cases fuel with
  | zero => exact absurd hf (by omega)
  | succ fuel =>
      cases hmc : model calls with
      | apiError m =>
          rw [runLoop_succ_err model net fuel calls hist ws last trace
            ErrKind.api m (by rw [hmc]; rfl)]
          exact ⟨[], by simp⟩
      | netError m =>
          rw [runLoop_succ_err model net fuel calls hist ws last trace
            ErrKind.net m (by rw [hmc]; rfl)]
          exact ⟨[], by simp⟩
      | otherError m =>
          rw [runLoop_succ_err model net fuel calls hist ws last trace
            ErrKind.other m (by rw [hmc]; rfl)]
          exact ⟨[], by simp⟩
      | ok resp =>
          by_cases hstop : resp.stop_reason = "tool_use"
          · cases hfw : firstWebSearchUse resp.content with
            | none =>
                rw [runLoop_succ_notool model net fuel calls hist ws last
                  trace resp hmc hstop hfw]
                exact ⟨[], by simp⟩
            | some p =>
                rw [runLoop_succ_tool model net fuel calls hist ws last trace
                  resp p.1 p.2 hmc hstop (by rw [hfw])]
                exact runLoop_trace_mono model net fuel (calls + 1)
                  (hist ++ toolPair net ws p.1 p.2) (toolWS net ws p.2)
                  (some resp) (trace ++ [hist])
          · rw [runLoop_succ_final model net fuel calls hist ws last trace
              resp hmc hstop]
            exact ⟨[], by simp⟩

/-- If every one of the next `fuel` model calls requests tool use, the
loop spends all its fuel, raises nothing, and its final response is the
one returned by the last of those calls. -/
theorem runLoop_allToolUse (model : Nat → ModelOutcome)
    (net : Nat → NetOutcome) :
    ∀ fuel calls hist ws last trace,
      (∀ i, i < fuel → requestsToolUseB (model (calls + i)) = true) →
      (runLoop model net fuel calls hist ws last trace).failure = none ∧
        (runLoop model net fuel calls hist ws last trace).calls
          = calls + fuel ∧
        (fuel = 0 →
          (runLoop model net fuel calls hist ws last trace).last = last) ∧
        (0 < fuel →
          (runLoop model net fuel calls hist ws last trace).last
            = respOf (model (calls + fuel - 1))) := by
  intro fuel
  induction fuel with
  | zero =>
      intro calls hist ws last trace _
      exact ⟨rfl, by simp [runLoop], fun _ => rfl, fun h => absurd h (by omega)⟩
  | succ fuel ih =>
      intro calls hist ws last trace hreq
      have h0 : requestsToolUseB (model calls) = true := by
        simpa using hreq 0 (by omega)
      cases hmc : model calls with
      | apiError m => rw [hmc] at h0; exact absurd h0 (by simp [requestsToolUseB])
      | netError m => rw [hmc] at h0; exact absurd h0 (by simp [requestsToolUseB])
      | otherError m => rw [hmc] at h0; exact absurd h0 (by simp [requestsToolUseB])
      | ok resp =>
          rw [hmc] at h0
          rw [requestsToolUseB, Bool.and_eq_true] at h0
          have hstop : resp.stop_reason = "tool_use" := by
            simpa using h0.1
          have hcw : (firstWebSearchUse resp.content).isSome = true := by
            rw [firstWebSearchUse_isSome]; exact h0.2
          obtain ⟨p, hfw⟩ := Option.isSome_iff_exists.mp hcw
          rw [runLoop_succ_tool model net fuel calls hist ws last trace
            resp p.1 p.2 hmc hstop (by rw [hfw])]
          have hreq1 : ∀ i, i < fuel →
              requestsToolUseB (model (calls + 1 + i)) = true := by
            intro i hi
            have := hreq (i + 1) (by omega)
            have harith : calls + (i + 1) = calls + 1 + i := by omega
            rwa [harith] at this
          obtain ⟨ih1, ih2, ih3, ih4⟩ := ih (calls + 1)
            (hist ++ toolPair net ws p.1 p.2) (toolWS net ws p.2)
            (some resp) (trace ++ [hist]) hreq1
          refine ⟨ih1, ?_, ?_, ?_⟩
          · rw [ih2]; omega
          · intro h; exact absurd h (by omega)
          intro _
          cases fuel with
          | zero =>
              rw [ih3 rfl]
              have harith : calls + (0 + 1) - 1 = calls := by omega
              rw [harith, hmc]
              rfl
          | succ fuel2 =>
              rw [ih4 (by omega)]
              have harith : calls + 1 + (fuel2 + 1) - 1
                  = calls + (fuel2 + 1 + 1) - 1 := by omega
              rw [harith]

/-- If the first `k` model calls request tool use and call `k` raises,
the loop (with enough fuel) stops at that call: it reports the raised
error kind and has issued exactly `k + 1` model calls. -/
theorem runLoop_reach_error (model : Nat → ModelOutcome)
    (net : Nat → NetOutcome) :
    ∀ fuel k calls hist ws last trace kind m,
      k < fuel →
      (∀ i, i < k → requestsToolUseB (model (calls + i)) = true) →
      modelErr (model (calls + k)) = some (kind, m) →
      (runLoop model net fuel calls hist ws last trace).failure
          = some (kind, m) ∧
        (runLoop model net fuel calls hist ws last trace).calls
          = calls + k + 1 := by
  intro fuel
  induction fuel with
  | zero => intro k _ _ _ _ _ _ _ hk; exact absurd hk (by omega)
  | succ fuel ih =>
      intro k calls hist ws last trace kind m hk hreq herr
      cases k with
      | zero =>
          rw [runLoop_succ_err model net fuel calls hist ws last trace
            kind m (by simpa using herr)]
          exact ⟨rfl, rfl⟩
      | succ j =>
          have h0 : requestsToolUseB (model calls) = true := by
            simpa using hreq 0 (by omega)
          cases hmc : model calls with
          | apiError m2 =>
              rw [hmc] at h0; exact absurd h0 (by simp [requestsToolUseB])
          | netError m2 =>
              rw [hmc] at h0; exact absurd h0 (by simp [requestsToolUseB])
          | otherError m2 =>
              rw [hmc] at h0; exact absurd h0 (by simp [requestsToolUseB])
          | ok resp =>
              rw [hmc] at h0
              rw [requestsToolUseB, Bool.and_eq_true] at h0
              have hstop : resp.stop_reason = "tool_use" := by
                simpa using h0.1
              have hcw : (firstWebSearchUse resp.content).isSome = true := by
                rw [firstWebSearchUse_isSome]; exact h0.2
              obtain ⟨p, hfw⟩ := Option.isSome_iff_exists.mp hcw
              rw [runLoop_succ_tool model net fuel calls hist ws last trace
                resp p.1 p.2 hmc hstop (by rw [hfw])]
              have hreq1 : ∀ i, i < j →
                  requestsToolUseB (model (calls + 1 + i)) = true := by
                intro i hi
                have := hreq (i + 1) (by omega)
                have harith : calls + (i + 1) = calls + 1 + i := by omega
                rwa [harith] at this
              have herr1 : modelErr (model (calls + 1 + j)) = some (kind, m) := by
                have harith : calls + (j + 1) = calls + 1 + j := by omega
                rwa [harith] at herr
              obtain ⟨ihf, ihc⟩ := ih j (calls + 1)
                (hist ++ toolPair net ws p.1 p.2) (toolWS net ws p.2)
                (some resp) (trace ++ [hist]) kind m (by omega) hreq1 herr1
              exact ⟨ihf, by rw [ihc]; omega⟩

/-! ### Lemmas about the post-loop section -/

/-- The post-loop section passes the model-call count through. -/
theorem finishQuery_calls (out : LoopOut) :
    (finishQuery out).calls = out.calls := by
  unfold finishQuery
  cases hf : out.failure with
  | some km => rfl
  | none => rfl

/-- The post-loop section passes the model-call trace through. -/
theorem finishQuery_trace (out : LoopOut) :
    (finishQuery out).trace = out.trace := by
  unfold finishQuery
  cases hf : out.failure with
  | some km => rfl
  | none => rfl

/-- On a raised exception the post-loop section returns the prefixed error
string and leaves history and search state as the loop left them. -/
theorem finishQuery_failure (out : LoopOut) (k : ErrKind) (m : String)
    (h : out.failure = some (k, m)) :
    finishQuery out
      = ⟨errorLabel k m, ⟨out.hist, out.ws⟩, out.calls, out.trace⟩ := by
  unfold finishQuery
  rw [h]

/-- On normal completion with a last response, the post-loop section
returns its concatenated text, appending it to history only when
non-empty. -/
theorem finishQuery_ok (out : LoopOut) (r : ModelResponse)
    (h : out.failure = none) (hl : out.last = some r) :
    finishQuery out
      = ⟨extract_final_text r,
         ⟨if extract_final_text r = "" then out.hist
          else out.hist ++ [⟨Role.assistant,
            TurnContent.text (extract_final_text r)⟩], out.ws⟩,
         out.calls, out.trace⟩ := by
  unfold finishQuery
  rw [h, hl]

/-- On normal completion without any response (never reached with positive
fuel, but total in the embedding), the text is empty and nothing is
appended. -/
theorem finishQuery_ok_nolast (out : LoopOut)
    (h : out.failure = none) (hl : out.last = none) :
    finishQuery out = ⟨"", ⟨out.hist, out.ws⟩, out.calls, out.trace⟩ := by
  unfold finishQuery
  rw [h, hl]
  simp

/-! ### The claims -/

/-- C1: every `process_research_query` invocation issues at most 5 model
calls; and when the model requests (recognized) tool use on all 5 allowed
iterations, the loop stops after the 5th call — no 6th call — and returns
the text extracted from the 5th response (possibly empty). -/
theorem C1_iteration_cap (model : Nat → ModelOutcome)
    (net : Nat → NetOutcome) (a : Assistant) (q : String) :
    (process_research_query model net a q).calls ≤ 5 ∧
      ((∀ i, i < 5 → requestsToolUseB (model i) = true) →
        (process_research_query model net a q).calls = 5 ∧
          (process_research_query model net a q).text
            = extractFromOutcome (model 4)) := by
  constructor
  · rw [process_research_query, finishQuery_calls]
    have := runLoop_calls_le model net max_iterations 0
      (a.conversation_history ++ [⟨Role.user, TurnContent.text q⟩]) a.ws
      none []
    simpa [max_iterations] using this
  · intro hreq
    have hreq0 : ∀ i, i < max_iterations →
        requestsToolUseB (model (0 + i)) = true := by
      intro i hi
      have harith : 0 + i = i := by omega
      rw [harith]
      exact hreq i (by simpa [max_iterations] using hi)
    obtain ⟨hfail, hcalls, _, hlast⟩ := runLoop_allToolUse model net
      max_iterations 0
      (a.conversation_history ++ [⟨Role.user, TurnContent.text q⟩]) a.ws
      none [] hreq0
    have hlast4 := hlast (by simp [max_iterations])
    constructor
    · rw [process_research_query, finishQuery_calls, hcalls]
      simp [max_iterations]
    · rw [process_research_query]
      cases hm4 : model (0 + max_iterations - 1) with
      | ok r =>
          rw [hm4, respOf] at hlast4
          rw [finishQuery_ok _ r hfail hlast4]
          have harith : 0 + max_iterations - 1 = 4 := by
            simp [max_iterations]
          rw [harith] at hm4
          rw [hm4]
          rfl
      | apiError m =>
          rw [hm4] at hlast4
          have : requestsToolUseB (model (0 + max_iterations - 1)) = true := by
            have harith : 0 + max_iterations - 1 = 0 + 4 := by
              simp [max_iterations]
            rw [harith]
            exact hreq0 4 (by simp [max_iterations])
          rw [hm4] at this
          exact absurd this (by simp [requestsToolUseB])
      | netError m =>
          rw [hm4] at hlast4
          have : requestsToolUseB (model (0 + max_iterations - 1)) = true := by
            have harith : 0 + max_iterations - 1 = 0 + 4 := by
              simp [max_iterations]
            rw [harith]
            exact hreq0 4 (by simp [max_iterations])
          rw [hm4] at this
          exact absurd this (by simp [requestsToolUseB])
      | otherError m =>
          rw [hm4] at hlast4
          have : requestsToolUseB (model (0 + max_iterations - 1)) = true := by
            have harith : 0 + max_iterations - 1 = 0 + 4 := by
              simp [max_iterations]
            rw [harith]
            exact hreq0 4 (by simp [max_iterations])
          rw [hm4] at this
          exact absurd this (by simp [requestsToolUseB])

/-- Witness for C1: a model that requests a `web_search` call on every
iteration (its 5th response carrying no text) makes exactly 5 model calls
and the query returns the empty string. -/
theorem C1_iteration_cap_witness :
    (∀ i, i < 5 → requestsToolUseB
      ((fun _ => ModelOutcome.ok ⟨"tool_use",
        [ContentBlock.tool_use "t1" "web_search" ⟨some "q", some 1⟩]⟩) i)
        = true) ∧
      (process_research_query
        (fun _ => ModelOutcome.ok ⟨"tool_use",
          [ContentBlock.tool_use "t1" "web_search" ⟨some "q", some 1⟩]⟩)
        (fun _ => NetOutcome.exn) ⟨[], initialWS⟩ "hello").calls = 5 ∧
      (process_research_query
        (fun _ => ModelOutcome.ok ⟨"tool_use",
          [ContentBlock.tool_use "t1" "web_search" ⟨some "q", some 1⟩]⟩)
        (fun _ => NetOutcome.exn) ⟨[], initialWS⟩ "hello").text
        = extractFromOutcome
            ((fun _ => ModelOutcome.ok ⟨"tool_use",
              [ContentBlock.tool_use "t1" "web_search"
                ⟨some "q", some 1⟩]⟩) 4) :=
  ⟨by decide,
   (C1_iteration_cap
     (fun _ => ModelOutcome.ok ⟨"tool_use",
       [ContentBlock.tool_use "t1" "web_search" ⟨some "q", some 1⟩]⟩)
     (fun _ => NetOutcome.exn) ⟨[], initialWS⟩ "hello").2 (by decide)⟩

/-- C2: starting from a well-paired history, the conversation history is
well paired (no `tool_use` turn without its immediately following,
identifier-matched `tool_result` turn) at the moment of every model call
issued during `process_research_query`, and when the invocation ends. -/
theorem C2_no_dangling_tool_use (model : Nat → ModelOutcome)
    (net : Nat → NetOutcome) (a : Assistant) (q : String)
    (hinv : noDangling a.conversation_history = true) :
    (∀ h2 ∈ (process_research_query model net a q).trace,
        noDangling h2 = true) ∧
      noDangling
        (process_research_query model net a q).assistant.conversation_history
        = true := by
  have hist0inv : noDangling
      (a.conversation_history ++ [⟨Role.user, TurnContent.text q⟩]) = true :=
    noDangling_append _ (noDangling_single_user _) _ hinv
  obtain ⟨Hh, Htr⟩ := runLoop_noDangling model net max_iterations 0
    (a.conversation_history ++ [⟨Role.user, TurnContent.text q⟩]) a.ws
    none [] hist0inv (by simp)
  constructor
  · rw [process_research_query, finishQuery_trace]
    exact Htr
  · rw [process_research_query]
    cases hfo : (runLoop model net max_iterations 0
        (a.conversation_history ++ [⟨Role.user, TurnContent.text q⟩]) a.ws
        none []).failure with
    | some km =>
        obtain ⟨k, m⟩ := km
        rw [finishQuery_failure _ k m hfo]
        exact Hh
    | none =>
        cases hlo : (runLoop model net max_iterations 0
            (a.conversation_history ++ [⟨Role.user, TurnContent.text q⟩])
            a.ws none []).last with
        | none =>
            rw [finishQuery_ok_nolast _ hfo hlo]
            exact Hh
        | some r =>
            rw [finishQuery_ok _ r hfo hlo]
            by_cases hft : extract_final_text r = ""
            · rw [if_pos hft]
              exact Hh
            · rw [if_neg hft]
              exact noDangling_append _
                (noDangling_single_text Role.assistant _) _ Hh

/-- Witness for C2: a concrete two-iteration run (one `web_search` call,
then a final answer) starting from the empty history; every model call
sees a well-paired history. -/
theorem C2_no_dangling_tool_use_witness :
    noDangling ([] : List Turn) = true ∧
      (∀ h2 ∈ (process_research_query
          (fun i => if i = 0
            then ModelOutcome.ok ⟨"tool_use",
              [ContentBlock.tool_use "t1" "web_search" ⟨some "q", some 1⟩]⟩
            else ModelOutcome.ok ⟨"end_turn", [ContentBlock.text "done"]⟩)
          (fun _ => NetOutcome.exn) ⟨[], initialWS⟩ "hello").trace,
          noDangling h2 = true) ∧
        noDangling (process_research_query
          (fun i => if i = 0
            then ModelOutcome.ok ⟨"tool_use",
              [ContentBlock.tool_use "t1" "web_search" ⟨some "q", some 1⟩]⟩
            else ModelOutcome.ok ⟨"end_turn", [ContentBlock.text "done"]⟩)
          (fun _ => NetOutcome.exn) ⟨[], initialWS⟩
          "hello").assistant.conversation_history = true :=
  ⟨by decide,
   C2_no_dangling_tool_use
     (fun i => if i = 0
       then ModelOutcome.ok ⟨"tool_use",
         [ContentBlock.tool_use "t1" "web_search" ⟨some "q", some 1⟩]⟩
       else ModelOutcome.ok ⟨"end_turn", [ContentBlock.text "done"]⟩)
     (fun _ => NetOutcome.exn) ⟨[], initialWS⟩ "hello" (by decide)⟩

/-- Repeated invocations of a pair that is already cached return the
cached value each time and leave the search state (cache and network log)
untouched. -/
theorem runSearches_cached (net : Nat → NetOutcome) (q : String) (n : Nat)
    (r : List SearchResult) :
    ∀ (m : Nat) (s : WSState),
      s.search_results_cache.lookup (cacheKey q n) = some r →
      runSearches net (List.replicate m (q, n)) s
        = (List.replicate m r, s) := by
  intro m
  induction m with
  | zero => intro s _; simp [runSearches]
  | succ m ih =>
      intro s h
      rw [List.replicate_succ, List.replicate_succ]
      show runSearches net ((q, n) :: List.replicate m (q, n)) s
        = (r :: List.replicate m r, s)
      rw [runSearches, web_search_hit net s q n r h, ih s h]

/-- C3 counterexample: two invocations of `web_search` with the same
(query, count) pair, the first of which hits a network failure, issue two
network calls — not one — and return different result sequences (the
failure is not cached, so the second invocation retries the network).
This refutes the claim that every pair issues exactly one network call
across repeated invocations with identical results. -/
theorem C3_cache_counterexample :
    (runSearches
        (fun i => if i = 0 then NetOutcome.exn
          else NetOutcome.ok (some [⟨some "T", some "U", some "D"⟩]))
        [("a", 5), ("a", 5)] initialWS).2.netLog.length = 2 ∧
      (runSearches
        (fun i => if i = 0 then NetOutcome.exn
          else NetOutcome.ok (some [⟨some "T", some "U", some "D"⟩]))
        [("a", 5), ("a", 5)] initialWS).1
        = [[], [⟨"T", "U", "D"⟩]] ∧
      (2 : Nat) ≠ 1 ∧
      ([] : List SearchResult) ≠ [⟨"T", "U", "D"⟩] := by
  refine ⟨by decide, by decide, by decide, by decide⟩

/-- C3 amended: for a pair whose first network call does not raise (the
provider answered, even with a malformed payload), any number of repeated
invocations within a session issue exactly one network call, every
invocation returns the same (cached) sequence, and that sequence is the
cache entry. -/
theorem C3_cache_one_network_call (net : Nat → NetOutcome) (q : String)
    (n m : Nat) (hok : net 0 ≠ NetOutcome.exn) :
    ∃ r,
      (runSearches net (List.replicate (m + 1) (q, n)) initialWS).1
          = List.replicate (m + 1) r ∧
        (runSearches net
          (List.replicate (m + 1) (q, n)) initialWS).2.netLog.length = 1 ∧
        (runSearches net (List.replicate (m + 1) (q, n))
            initialWS).2.search_results_cache.lookup (cacheKey q n)
          = some r := by
  cases hnet : net 0 with
  | exn => exact absurd hnet hok
  | ok p =>
      cases p with
      | none =>
          refine ⟨[], ?_⟩
          have hws : web_search net initialWS q n
              = ([], ⟨[(cacheKey q n, [])],
                  [(cacheKey q n, NetOutcome.ok none)]⟩) := by
            unfold web_search
            simp [initialWS, hnet]
          have hlook : (⟨[(cacheKey q n, [])],
              [(cacheKey q n, NetOutcome.ok none)]⟩ :
                WSState).search_results_cache.lookup (cacheKey q n)
              = some [] := by
            simp [List.lookup]
          have hrest := runSearches_cached net q n [] m _ hlook
          rw [List.replicate_succ, List.replicate_succ]
          rw [runSearches, hws, hrest]
          exact ⟨rfl, rfl, by simp [List.lookup]⟩
      | some items =>
          refine ⟨(items.take n).map processItem, ?_⟩
          have hws : web_search net initialWS q n
              = ((items.take n).map processItem,
                 ⟨[(cacheKey q n, (items.take n).map processItem)],
                  [(cacheKey q n, NetOutcome.ok (some items))]⟩) := by
            unfold web_search
            simp [initialWS, hnet]
          have hlook : (⟨[(cacheKey q n, (items.take n).map processItem)],
              [(cacheKey q n, NetOutcome.ok (some items))]⟩ :
                WSState).search_results_cache.lookup (cacheKey q n)
              = some ((items.take n).map processItem) := by
            simp [List.lookup]
          have hrest := runSearches_cached net q n
            ((items.take n).map processItem) m _ hlook
          rw [List.replicate_succ, List.replicate_succ]
          rw [runSearches, hws, hrest]
          exact ⟨rfl, rfl, by simp [List.lookup]⟩

/-- Witness for the amended C3: four repeated invocations of a pair whose
(single) network call succeeds issue exactly one network call and all
return the same sequence. -/
theorem C3_cache_one_network_call_witness :
    ((fun _ => NetOutcome.ok (some [⟨some "T", some "U", some "D"⟩]))
        0 ≠ NetOutcome.exn) ∧
      ∃ r,
        (runSearches
            (fun _ => NetOutcome.ok (some [⟨some "T", some "U", some "D"⟩]))
            (List.replicate (3 + 1) ("a", 2)) initialWS).1
            = List.replicate (3 + 1) r ∧
          (runSearches
            (fun _ => NetOutcome.ok (some [⟨some "T", some "U", some "D"⟩]))
            (List.replicate (3 + 1) ("a", 2))
              initialWS).2.netLog.length = 1 ∧
          (runSearches
            (fun _ => NetOutcome.ok (some [⟨some "T", some "U", some "D"⟩]))
            (List.replicate (3 + 1) ("a", 2))
              initialWS).2.search_results_cache.lookup (cacheKey "a" 2)
            = some r :=
  ⟨by decide,
   C3_cache_one_network_call
     (fun _ => NetOutcome.ok (some [⟨some "T", some "U", some "D"⟩]))
     "a" 2 3 (by decide)⟩

/-- The formatter's accumulation loop is the concatenation of one rendered
entry per item, numbered consecutively from the starting index, in input
order. -/
theorem formatFrom_concat (l : List SearchResult) :
    ∀ i : Nat,
      formatFrom i l
        = concatStrings
            ((List.enumFrom i l).map fun p => format_entry p.1 p.2) := by
  induction l with
  | nil => intro i; rfl
  | cons r rs ih =>
      intro i
      rw [formatFrom, List.enumFrom, List.map, concatStrings, ih (i + 1)]

/-- C4: `format_search_results` returns the fixed no-results sentinel on
empty input; every rendered entry embeds its number, the item's title,
URL and description; and on non-empty input the output is the header
followed by the concatenation of exactly one numbered entry per input
item, numbered from 1 in input order. -/
theorem C4_formatter :
    format_search_results [] = "No search results found." ∧
      (∀ (i : Nat) (r : SearchResult),
        ∃ s1 s2 s3 s4,
          format_entry i r
            = toString i ++ s1 ++ r.title ++ s2 ++ r.url ++ s3
                ++ r.description ++ s4) ∧
      ∀ l : List SearchResult, l ≠ [] →
        format_search_results l
            = "### Search Results:\n\n"
                ++ concatStrings
                  ((List.enumFrom 1 l).map fun p => format_entry p.1 p.2) ∧
          ((List.enumFrom 1 l).map fun p => format_entry p.1 p.2).length
            = l.length := by
  refine ⟨rfl, ?_, ?_⟩
  · intro i r
    refine ⟨". **", "**\n" ++ "   URL: ", "\n" ++ "   ", "\n\n", ?_⟩
    rw [format_entry]
    simp [String.append_assoc]
  · intro l hl
    constructor
    · rw [format_search_results, if_neg (by simpa using hl),
        formatFrom_concat l 1]
    · simp

/-- Witness for C4: a concrete two-item input renders as the header plus
two numbered entries, in order. -/
theorem C4_formatter_witness :
    (([⟨"T1", "U1", "D1"⟩, ⟨"T2", "U2", "D2"⟩] : List SearchResult) ≠ [])
      ∧ (format_search_results [⟨"T1", "U1", "D1"⟩, ⟨"T2", "U2", "D2"⟩]
            = "### Search Results:\n\n"
                ++ concatStrings
                  ((List.enumFrom 1
                      [(⟨"T1", "U1", "D1"⟩ : SearchResult),
                        ⟨"T2", "U2", "D2"⟩]).map
                    fun p => format_entry p.1 p.2) ∧
          ((List.enumFrom 1
              [(⟨"T1", "U1", "D1"⟩ : SearchResult),
                ⟨"T2", "U2", "D2"⟩]).map
            fun p => format_entry p.1 p.2).length
            = ([(⟨"T1", "U1", "D1"⟩ : SearchResult),
                ⟨"T2", "U2", "D2"⟩] : List SearchResult).length) :=
  ⟨by decide,
   C4_formatter.2.2 [⟨"T1", "U1", "D1"⟩, ⟨"T2", "U2", "D2"⟩]
     (by decide)⟩

/-- C5 counterexample: in a response whose first tool-use block is named
`other_tool` and whose second is named `web_search`, the first block is
skipped and the second is dispatched: the appended tool_use/tool_result
pair carries the second block's identifier `"id2"`, not the first block's
`"id1"`.  This refutes the claim that only the first tool-use block in the
response content is acted on. -/
theorem C5_first_block_counterexample :
    firstToolUse
        [ContentBlock.tool_use "id1" "other_tool" ⟨some "alpha", some 1⟩,
         ContentBlock.tool_use "id2" "web_search" ⟨some "beta", some 1⟩]
      = some ("id1", "other_tool", ⟨some "alpha", some 1⟩) ∧
      (handle_tool_use (fun _ => NetOutcome.exn) initialWS []
          [ContentBlock.tool_use "id1" "other_tool" ⟨some "alpha", some 1⟩,
           ContentBlock.tool_use "id2" "web_search"
             ⟨some "beta", some 1⟩]).1 = true ∧
      (handle_tool_use (fun _ => NetOutcome.exn) initialWS []
          [ContentBlock.tool_use "id1" "other_tool" ⟨some "alpha", some 1⟩,
           ContentBlock.tool_use "id2" "web_search"
             ⟨some "beta", some 1⟩]).2.2
        = [⟨Role.assistant, TurnContent.blocks
              [ContentBlock.tool_use "id2" "web_search"
                ⟨some "beta", some 1⟩]⟩,
           ⟨Role.user, TurnContent.blocks
              [ContentBlock.tool_result "id2"
                "No search results found."]⟩] ∧
      ("id1" : String) ≠ "id2" := by
  refine ⟨by decide, by decide, by decide, by decide⟩

/-- C5 amended: per iteration, `handle_tool_use` acts on exactly the first
tool-use block named `web_search` — skipping tool-use blocks with other
names — so at most one tool dispatch occurs (at most one network call) and
at most one tool_use/tool_result pair is appended to history. -/
theorem C5_first_web_search_block (net : Nat → NetOutcome) (s : WSState)
    (hist : List Turn) (bs : List ContentBlock) :
    (firstWebSearchUse bs = none ∧
        handle_tool_use net s hist bs = (false, s, hist)) ∨
      ∃ tid inp,
        firstWebSearchUse bs = some (tid, inp) ∧
          handle_tool_use net s hist bs
            = (true, toolWS net s inp, hist ++ toolPair net s tid inp) ∧
          (handle_tool_use net s hist bs).2.1.netLog.length
            ≤ s.netLog.length + 1 := by
  cases hfw : firstWebSearchUse bs with
  | none => exact Or.inl ⟨rfl, handle_tool_use_none net s hist bs hfw⟩
  | some p =>
      refine Or.inr ⟨p.1, p.2, rfl, ?_, ?_⟩
      · rw [handle_tool_use_some net s hist bs p.1 p.2 (by rw [hfw])]
        rw [toolWS, toolPair]
      · rw [handle_tool_use_some net s hist bs p.1 p.2 (by rw [hfw])]
        exact web_search_netLog_le net s (p.2.query.getD "")
          (p.2.num_results.getD 5)

/-- C6: if the first model response declares tool use but every tool-use
block it carries has a name other than `web_search`, then no dispatch
occurs (search state untouched), no tool_use/tool_result turns are
appended, and the loop ends after that single model call, returning the
response's text blocks (possibly the empty string, in which case nothing
is appended to history either). -/
theorem C6_unrecognized_tool (model : Nat → ModelOutcome)
    (net : Nat → NetOutcome) (a : Assistant) (q : String)
    (resp : ModelResponse) (h0 : model 0 = ModelOutcome.ok resp)
    (h1 : resp.stop_reason = "tool_use")
    (h2 : containsToolUse resp.content = true)
    (h3 : containsWebSearchUse resp.content = false) :
    (process_research_query model net a q).calls = 1 ∧
      (process_research_query model net a q).text
        = extract_final_text resp ∧
      (process_research_query model net a q).assistant.ws = a.ws ∧
      (process_research_query model net a q).assistant.conversation_history
        = (a.conversation_history ++ [⟨Role.user, TurnContent.text q⟩])
            ++ (if extract_final_text resp = "" then []
                else [⟨Role.assistant,
                  TurnContent.text (extract_final_text resp)⟩]) := by
  have hfw : firstWebSearchUse resp.content = none := by
    cases hfw2 : firstWebSearchUse resp.content with
    | none => rfl
    | some p =>
        have := firstWebSearchUse_isSome resp.content
        rw [hfw2, h3] at this
        exact absurd this (by simp)
  rw [process_research_query]
  have e5 : max_iterations = 4 + 1 := rfl
  rw [e5, runLoop_succ_notool _ _ _ _ _ _ _ _ _ h0 h1 hfw]
  rw [finishQuery_ok _ resp rfl rfl]
  refine ⟨rfl, rfl, rfl, ?_⟩
  by_cases hft : extract_final_text resp = ""
  · rw [if_pos hft, if_pos hft]
    simp
  · rw [if_neg hft, if_neg hft]

/-- Witness for C6: a response requesting an unknown tool `calculator`
(and carrying a text block) ends the query after one model call with that
text, appending only the user query and the final text to history. -/
theorem C6_unrecognized_tool_witness :
    ((fun _ => ModelOutcome.ok ⟨"tool_use",
        [ContentBlock.text "cannot help",
         ContentBlock.tool_use "x1" "calculator" ⟨none, none⟩]⟩) 0
      = ModelOutcome.ok ⟨"tool_use",
          [ContentBlock.text "cannot help",
           ContentBlock.tool_use "x1" "calculator" ⟨none, none⟩]⟩) ∧
      (⟨"tool_use", [ContentBlock.text "cannot help",
        ContentBlock.tool_use "x1" "calculator" ⟨none, none⟩]⟩ :
          ModelResponse).stop_reason = "tool_use" ∧
      containsToolUse [ContentBlock.text "cannot help",
        ContentBlock.tool_use "x1" "calculator" ⟨none, none⟩] = true ∧
      containsWebSearchUse [ContentBlock.text "cannot help",
        ContentBlock.tool_use "x1" "calculator" ⟨none, none⟩] = false ∧
      ((process_research_query
          (fun _ => ModelOutcome.ok ⟨"tool_use",
            [ContentBlock.text "cannot help",
             ContentBlock.tool_use "x1" "calculator" ⟨none, none⟩]⟩)
          (fun _ => NetOutcome.exn) ⟨[], initialWS⟩ "hi").calls = 1 ∧
        (process_research_query
          (fun _ => ModelOutcome.ok ⟨"tool_use",
            [ContentBlock.text "cannot help",
             ContentBlock.tool_use "x1" "calculator" ⟨none, none⟩]⟩)
          (fun _ => NetOutcome.exn) ⟨[], initialWS⟩ "hi").text
          = extract_final_text ⟨"tool_use",
              [ContentBlock.text "cannot help",
               ContentBlock.tool_use "x1" "calculator" ⟨none, none⟩]⟩ ∧
        (process_research_query
          (fun _ => ModelOutcome.ok ⟨"tool_use",
            [ContentBlock.text "cannot help",
             ContentBlock.tool_use "x1" "calculator" ⟨none, none⟩]⟩)
          (fun _ => NetOutcome.exn) ⟨[], initialWS⟩ "hi").assistant.ws
          = (⟨[], initialWS⟩ : Assistant).ws ∧
        (process_research_query
          (fun _ => ModelOutcome.ok ⟨"tool_use",
            [ContentBlock.text "cannot help",
             ContentBlock.tool_use "x1" "calculator" ⟨none, none⟩]⟩)
          (fun _ => NetOutcome.exn)
          ⟨[], initialWS⟩ "hi").assistant.conversation_history
          = (([] : List Turn) ++ [⟨Role.user, TurnContent.text "hi"⟩])
              ++ (if extract_final_text ⟨"tool_use",
                    [ContentBlock.text "cannot help",
                     ContentBlock.tool_use "x1" "calculator"
                       ⟨none, none⟩]⟩ = "" then []
                  else [⟨Role.assistant, TurnContent.text
                    (extract_final_text ⟨"tool_use",
                      [ContentBlock.text "cannot help",
                       ContentBlock.tool_use "x1" "calculator"
                         ⟨none, none⟩]⟩)⟩])) :=
  ⟨rfl, rfl, by decide, by decide,
   C6_unrecognized_tool
     (fun _ => ModelOutcome.ok ⟨"tool_use",
       [ContentBlock.text "cannot help",
        ContentBlock.tool_use "x1" "calculator" ⟨none, none⟩]⟩)
     (fun _ => NetOutcome.exn) ⟨[], initialWS⟩ "hi"
     ⟨"tool_use", [ContentBlock.text "cannot help",
       ContentBlock.tool_use "x1" "calculator" ⟨none, none⟩]⟩
     rfl rfl (by decide) (by decide)⟩

/-- C7: when a `web_search` invocation actually reaches the network (cache
miss) and the HTTP round trip raises (network failure or non-2xx) or the
payload is malformed, `web_search` returns the empty result sequence
(raising nothing), the formatter renders the no-results sentinel, and
`handle_tool_use` still appends the tool_use/tool_result pair and reports
the tool used — so the loop continues instead of aborting the query. -/
theorem C7_search_failure_nonfatal (net : Nat → NetOutcome) (ws : WSState)
    (hist : List Turn) (tid : String) (inp : ToolInput)
    (hmiss : ws.search_results_cache.lookup
      (cacheKey (inp.query.getD "") (inp.num_results.getD 5)) = none)
    (hfail : net ws.netLog.length = NetOutcome.exn ∨
      net ws.netLog.length = NetOutcome.ok none) :
    (web_search net ws (inp.query.getD "") (inp.num_results.getD 5)).1
        = [] ∧
      format_search_results
        (web_search net ws (inp.query.getD "")
          (inp.num_results.getD 5)).1 = "No search results found." ∧
      handle_tool_use net ws hist
          [ContentBlock.tool_use tid "web_search" inp]
        = (true,
           (web_search net ws (inp.query.getD "")
             (inp.num_results.getD 5)).2,
           hist ++ [⟨Role.assistant, TurnContent.blocks
                      [ContentBlock.tool_use tid "web_search" inp]⟩,
                    ⟨Role.user, TurnContent.blocks
                      [ContentBlock.tool_result tid
                        "No search results found."]⟩]) := by
  have hws : (web_search net ws (inp.query.getD "")
      (inp.num_results.getD 5)).1 = [] := by
    unfold web_search
    rcases hfail with hf | hf <;> simp [hmiss, hf]
  have hfmt : format_search_results
      (web_search net ws (inp.query.getD "")
        (inp.num_results.getD 5)).1 = "No search results found." := by
    rw [hws]
    rfl
  refine ⟨hws, hfmt, ?_⟩
  have h := handle_tool_use_some net ws hist
    [ContentBlock.tool_use tid "web_search" inp] tid inp
    (by rw [firstWebSearchUse, if_pos rfl])
  rw [h, hfmt]

/-- Witness for C7: a concrete cache-missing invocation whose network call
raises returns no results, and the loop's history gains exactly the
tool_use turn and a tool_result turn carrying the sentinel. -/
theorem C7_search_failure_nonfatal_witness :
    (initialWS.search_results_cache.lookup
        (cacheKey ((⟨some "x", some 3⟩ : ToolInput).query.getD "")
          ((⟨some "x", some 3⟩ : ToolInput).num_results.getD 5)) = none) ∧
      ((fun _ => NetOutcome.exn) initialWS.netLog.length
          = NetOutcome.exn ∨
        (fun _ => NetOutcome.exn) initialWS.netLog.length
          = NetOutcome.ok none) ∧
      ((web_search (fun _ => NetOutcome.exn) initialWS
          (((⟨some "x", some 3⟩ : ToolInput)).query.getD "")
          (((⟨some "x", some 3⟩ : ToolInput)).num_results.getD 5)).1
          = [] ∧
        format_search_results
          (web_search (fun _ => NetOutcome.exn) initialWS
            (((⟨some "x", some 3⟩ : ToolInput)).query.getD "")
            (((⟨some "x", some 3⟩ : ToolInput)).num_results.getD 5)).1
          = "No search results found." ∧
        handle_tool_use (fun _ => NetOutcome.exn) initialWS []
            [ContentBlock.tool_use "t9" "web_search" ⟨some "x", some 3⟩]
          = (true,
             (web_search (fun _ => NetOutcome.exn) initialWS
               (((⟨some "x", some 3⟩ : ToolInput)).query.getD "")
               (((⟨some "x", some 3⟩ : ToolInput)).num_results.getD 5)).2,
             [] ++ [⟨Role.assistant, TurnContent.blocks
                      [ContentBlock.tool_use "t9" "web_search"
                        ⟨some "x", some 3⟩]⟩,
                    ⟨Role.user, TurnContent.blocks
                      [ContentBlock.tool_result "t9"
                        "No search results found."]⟩])) :=
  ⟨by decide, Or.inl rfl,
   C7_search_failure_nonfatal (fun _ => NetOutcome.exn) initialWS []
     "t9" ⟨some "x", some 3⟩ (by decide) (Or.inl rfl)⟩

/-- C8: if the model call of iteration `k` raises (any of the three caught
exception kinds) after the earlier iterations all requested tool use,
`process_research_query` neither retries nor propagates the exception: it
returns the error-kind-prefixed message as the answer string, exactly
`k + 1` model calls were issued (none after the failing one), and the
session's history is still well paired, so the session remains usable for
the next query. -/
theorem C8_model_error_string (model : Nat → ModelOutcome)
    (net : Nat → NetOutcome) (a : Assistant) (q : String) (k : Nat)
    (kind : ErrKind) (m : String) (hk : k < 5)
    (hpre : ∀ i, i < k → requestsToolUseB (model i) = true)
    (herr : modelErr (model k) = some (kind, m))
    (hinv : noDangling a.conversation_history = true) :
    (process_research_query model net a q).text = errorLabel kind m ∧
      (process_research_query model net a q).calls = k + 1 ∧
      noDangling
        (process_research_query model net a q).assistant.conversation_history
        = true := by
  have hpre0 : ∀ i, i < k → requestsToolUseB (model (0 + i)) = true := by
    intro i hi
    have harith : 0 + i = i := by omega
    rw [harith]
    exact hpre i hi
  have herr0 : modelErr (model (0 + k)) = some (kind, m) := by
    have harith : 0 + k = k := by omega
    rwa [harith]
  obtain ⟨hfail, hcalls⟩ := runLoop_reach_error model net max_iterations k 0
    (a.conversation_history ++ [⟨Role.user, TurnContent.text q⟩]) a.ws
    none [] kind m (by simpa [max_iterations] using hk) hpre0 herr0
  have hist0inv : noDangling
      (a.conversation_history ++ [⟨Role.user, TurnContent.text q⟩]) = true :=
    noDangling_append _ (noDangling_single_user _) _ hinv
  obtain ⟨Hh, _⟩ := runLoop_noDangling model net max_iterations 0
    (a.conversation_history ++ [⟨Role.user, TurnContent.text q⟩]) a.ws
    none [] hist0inv (by simp)
  rw [process_research_query, finishQuery_failure _ kind m hfail]
  refine ⟨rfl, ?_, Hh⟩
  rw [hcalls]
  show 0 + k + 1 = k + 1
  omega

/-- Witness for C8: a model whose first call raises `anthropic.APIError`
with message `boom` yields the answer string `Anthropic API Error: boom`
after exactly one model call, with history still well paired. -/
theorem C8_model_error_string_witness :
    (0 < 5) ∧
      (∀ i, i < 0 → requestsToolUseB
        ((fun _ => ModelOutcome.apiError "boom") i) = true) ∧
      modelErr ((fun _ => ModelOutcome.apiError "boom") 0)
        = some (ErrKind.api, "boom") ∧
      noDangling (⟨[], initialWS⟩ : Assistant).conversation_history = true ∧
      ((process_research_query (fun _ => ModelOutcome.apiError "boom")
          (fun _ => NetOutcome.exn) ⟨[], initialWS⟩ "hi").text
          = errorLabel ErrKind.api "boom" ∧
        (process_research_query (fun _ => ModelOutcome.apiError "boom")
          (fun _ => NetOutcome.exn) ⟨[], initialWS⟩ "hi").calls = 0 + 1 ∧
        noDangling (process_research_query
          (fun _ => ModelOutcome.apiError "boom")
          (fun _ => NetOutcome.exn)
          ⟨[], initialWS⟩ "hi").assistant.conversation_history = true) :=
  ⟨by decide, by decide, rfl, by decide,
   C8_model_error_string (fun _ => ModelOutcome.apiError "boom")
     (fun _ => NetOutcome.exn) ⟨[], initialWS⟩ "hi" 0 ErrKind.api "boom"
     (by decide) (by decide) rfl (by decide)⟩

/-- C9: `reset_conversation` empties the conversation history, returns the
confirmation string, and leaves the search state — in particular every
cached (query, count) entry — untouched; being total it also cannot fail
when the history is already empty. -/
theorem C9_reset (a : Assistant) :
    (reset_conversation a).1.conversation_history = [] ∧
      (reset_conversation a).2 = "Conversation has been reset." ∧
      (reset_conversation a).1.ws = a.ws ∧
      ∀ key : String,
        (reset_conversation a).1.ws.search_results_cache.lookup key
          = a.ws.search_results_cache.lookup key :=
  ⟨rfl, rfl, rfl, fun _ => rfl⟩

/-- C10: when a query ends in an error path, the user-query turn appended
at its start is still in history, everything after it is structured tool
turns (in particular the returned error string was never appended), the
history therefore ends with a user-role turn, and the next query's first
model call sees that history plus a second consecutive user turn. -/
theorem C10_error_history (model : Nat → ModelOutcome)
    (net : Nat → NetOutcome) (a : Assistant) (q : String) (k : Nat)
    (kind : ErrKind) (m : String) (hk : k < 5)
    (hpre : ∀ i, i < k → requestsToolUseB (model i) = true)
    (herr : modelErr (model k) = some (kind, m)) :
    ∃ rest : List Turn,
      (process_research_query model net a q).assistant.conversation_history
          = a.conversation_history
              ++ (⟨Role.user, TurnContent.text q⟩ :: rest) ∧
        (∀ t ∈ rest, ∃ bs, t.content = TurnContent.blocks bs) ∧
        ((process_research_query model net a
            q).assistant.conversation_history.getLast?).map Turn.role
          = some Role.user ∧
        ∀ (model2 : Nat → ModelOutcome) (net2 : Nat → NetOutcome)
          (q2 : String),
          ∃ more,
            (process_research_query model2 net2
                (process_research_query model net a q).assistant q2).trace
              = ((process_research_query model net a
                    q).assistant.conversation_history
                  ++ [⟨Role.user, TurnContent.text q2⟩]) :: more := by
  have hpre0 : ∀ i, i < k → requestsToolUseB (model (0 + i)) = true := by
    intro i hi
    have harith : 0 + i = i := by omega
    rw [harith]
    exact hpre i hi
  have herr0 : modelErr (model (0 + k)) = some (kind, m) := by
    have harith : 0 + k = k := by omega
    rwa [harith]
  obtain ⟨hfail, _⟩ := runLoop_reach_error model net max_iterations k 0
    (a.conversation_history ++ [⟨Role.user, TurnContent.text q⟩]) a.ws
    none [] kind m (by simpa [max_iterations] using hk) hpre0 herr0
  obtain ⟨rest, hsh, hblocks, hlast⟩ := runLoop_hist_shape model net
    max_iterations 0
    (a.conversation_history ++ [⟨Role.user, TurnContent.text q⟩]) a.ws
    none []
  have hhist : (process_research_query model net a
      q).assistant.conversation_history
      = (a.conversation_history ++ [⟨Role.user, TurnContent.text q⟩])
          ++ rest := by
    rw [process_research_query, finishQuery_failure _ kind m hfail]
    exact hsh
  refine ⟨rest, ?_, hblocks, ?_, ?_⟩
  · rw [hhist, List.append_assoc]
    rfl
  · rw [hhist]
    rcases hlast with h | ⟨t2, ht2, ht2r⟩
    · subst h
      rw [List.append_nil, List.getLast?_concat]
      rfl
    · have hne : rest ≠ [] := by
        intro hnil
        rw [hnil] at ht2
        cases ht2
      rw [getLast?_append_right rest hne, ht2]
      simp [ht2r]
  · intro model2 net2 q2
    obtain ⟨more, hmore⟩ := runLoop_trace_head model2 net2 max_iterations 0
      ((process_research_query model net a q).assistant.conversation_history
        ++ [⟨Role.user, TurnContent.text q2⟩])
      (process_research_query model net a q).assistant.ws none []
      (by simp [max_iterations])
    refine ⟨more, ?_⟩
    rw [process_research_query, finishQuery_trace]
    simpa using hmore

/-- Witness for C10: an unexpected failure on the first model call leaves
exactly the user-query turn in history (ending with a user turn), and the
next query's first model call sees that turn followed by a second user
turn. -/
theorem C10_error_history_witness :
    (0 < 5) ∧
      (∀ i, i < 0 → requestsToolUseB
        ((fun _ => ModelOutcome.otherError "crash") i) = true) ∧
      modelErr ((fun _ => ModelOutcome.otherError "crash") 0)
        = some (ErrKind.other, "crash") ∧
      ∃ rest : List Turn,
        (process_research_query (fun _ => ModelOutcome.otherError "crash")
            (fun _ => NetOutcome.exn) ⟨[], initialWS⟩
            "hi").assistant.conversation_history
            = (⟨[], initialWS⟩ : Assistant).conversation_history
                ++ (⟨Role.user, TurnContent.text "hi"⟩ :: rest) ∧
          (∀ t ∈ rest, ∃ bs, t.content = TurnContent.blocks bs) ∧
          ((process_research_query (fun _ => ModelOutcome.otherError "crash")
              (fun _ => NetOutcome.exn) ⟨[], initialWS⟩
              "hi").assistant.conversation_history.getLast?).map Turn.role
            = some Role.user ∧
          ∀ (model2 : Nat → ModelOutcome) (net2 : Nat → NetOutcome)
            (q2 : String),
            ∃ more,
              (process_research_query model2 net2
                  (process_research_query
                    (fun _ => ModelOutcome.otherError "crash")
                    (fun _ => NetOutcome.exn) ⟨[], initialWS⟩
                    "hi").assistant q2).trace
                = ((process_research_query
                      (fun _ => ModelOutcome.otherError "crash")
                      (fun _ => NetOutcome.exn) ⟨[], initialWS⟩
                      "hi").assistant.conversation_history
                    ++ [⟨Role.user, TurnContent.text q2⟩]) :: more :=
  ⟨by decide, by decide, rfl,
   C10_error_history (fun _ => ModelOutcome.otherError "crash")
     (fun _ => NetOutcome.exn) ⟨[], initialWS⟩ "hi" 0 ErrKind.other "crash"
     (by decide) (by decide) rfl⟩

example :
    format_search_results [⟨"T", "U", "D"⟩]
      = "### Search Results:\n\n1. **T**\n   URL: U\n   D\n\n" := by decide

example :
    (web_search (fun _ => NetOutcome.exn) initialWS "a" 2).1 = [] := by decide

example :
    (web_search (fun _ => NetOutcome.ok (some [⟨some "T", none, some "D"⟩]))
      initialWS "a" 2).1 = [⟨"T", "", "D"⟩] := by decide

end ResearchAssistant
